import Mathlib

/-!
Verification development for the SimpleOCR field-extraction core.

The embedding covers, faithfully to the Python source:
  * `src/src/vllm_client.py` — the remote-inference client `VLLMClient`
    (retry-decorated `generate_async`, confidence derivation, error wrapping);
  * `src/src/ai_receipt_parser.py` — the hybrid arbitration engine
    `AIReceiptParser.extract_fields` and its regex fallback extractors.

Python machine types are modelled as follows: `str` as `String` (worked on as
`List Char`), `float` as `ℚ` (every numeric literal and parsed decimal in the
extraction paths is an exact finite decimal, so comparisons and means agree with
IEEE semantics on all values arising here), `None`-able values as `Option`,
raised exceptions as `Except` over an exception-kind type mirroring the Python
class hierarchy.  Network and JSON-library behaviour is supplied as explicit
environment parameters so every definition stays executable.
-/

namespace SimpleOCR

/-! ## Python string primitives -/

/-- Python's `\s` / `str.strip()` whitespace class (ASCII part; the Unicode
whitespace extension is never exercised by the receipt patterns). -/
def isPySpace (c : Char) : Bool :=
  c = ' ' || c = '\t' || c = '\n' || c = '\r' || c = '\x0b' || c = '\x0c'

/-- Python `str.strip()` on a character list. -/
def stripChars (s : List Char) : List Char :=
  ((s.dropWhile isPySpace).reverse.dropWhile isPySpace).reverse

/-- Python `str.strip()`. -/
def pyStrip (s : String) : String :=
  String.mk (stripChars s.data)

/-- Case-insensitive character comparison, as under `re.IGNORECASE`. -/
def ciEq (a b : Char) : Bool := a.toLower = b.toLower

/-- `[0-9]` (`\d`, ASCII). -/
def isDigitC (c : Char) : Bool := c.isDigit

/-- The character class `[:\s]`. -/
def isColonSpace (c : Char) : Bool := c = ':' || isPySpace c

/-- The currency class `[\$£€]`. -/
def isCurrencyC (c : Char) : Bool := c = '$' || c = '£' || c = '€'

/-- The class `[A-Z0-9-]` under `re.IGNORECASE` (ASCII letters of either case,
digits, and the hyphen). -/
def isAlnumDash (c : Char) : Bool := c.isAlpha || c.isDigit || c = '-'

/-- ASCII letter (the classes `[A-Z]` and `[a-z]` under `re.IGNORECASE`). -/
def isLetterC (c : Char) : Bool := c.isAlpha

/-! ## A small backtracking regex engine

A matcher sends the input suffix to the list of possible remainders after a
match, ordered by Python's backtracking priority (greedy quantifiers produce
the longest alternative first).  Sequencing concatenates candidate lists in
lexicographic order, which is exactly Python `re`'s backtracking order. -/

/-- Matcher: candidate remainders in backtracking-priority order. -/
abbrev M := List Char → List (List Char)

/-- Empty pattern. -/
def mEps : M := fun s => [s]

/-- Single character of a class. -/
def mCls (p : Char → Bool) : M := fun s =>
  match s with
  | [] => []
  | c :: r => if p c then [r] else []

/-- Sequencing; preserves backtracking priority lexicographically. -/
def mSeq (a b : M) : M := fun s => (a s).flatMap b

/-- Case-insensitive literal, as every pattern is compiled with
`re.IGNORECASE`. -/
def mLit (lit : String) : M :=
  lit.data.foldr (fun c m => mSeq (mCls (fun d => ciEq d c)) m) mEps

/-- Length of the maximal leading run of class `p`. -/
def leadRun (p : Char → Bool) : List Char → Nat
  | [] => 0
  | c :: r => if p c then leadRun p r + 1 else 0

/-- Greedy bounded repetition of a character class (`{lo,hi}`): remainders
after consuming `hi`-capped maximal run down to `lo` characters, longest
first. -/
def runCands (p : Char → Bool) (lo hi : Nat) (s : List Char) : List (List Char) :=
  let m := min hi (leadRun p s)
  if m < lo then []
  else (List.range (m + 1 - lo)).map (fun i => s.drop (m - i))

/-- `p{lo,hi}` on a character class. -/
def mRep (p : Char → Bool) (lo hi : Nat) : M := fun s => runCands p lo hi s

/-- `p+` on a character class (the bound can never exceed the input length). -/
def mPlus (p : Char → Bool) : M := fun s => runCands p 1 s.length s

/-- `p*` on a character class. -/
def mStar (p : Char → Bool) : M := fun s => runCands p 0 s.length s

/-- `p?` on a character class, greedy. -/
def mOpt1 (p : Char → Bool) : M := fun s =>
  match s with
  | [] => [s]
  | c :: r => if p c then [r, s] else [s]

/-- Greedy star over a deterministic unit (used for `(?:,\d{3})*`): candidate
remainders with the most iterations first.  Every unit below consumes at least
one character, so the input length bounds the iteration count. -/
def starCandsAux (u : List Char → Option (List Char)) :
    Nat → List Char → List (List Char) → List (List Char)
  | 0, s, acc => s :: acc
  | n + 1, s, acc =>
    match u s with
    | none => s :: acc
    | some t => starCandsAux u n t (s :: acc)

/-- Greedy star over a deterministic unit. -/
def mStarU (u : List Char → Option (List Char)) : M := fun s =>
  starCandsAux u s.length s []

/-- Greedy option over a deterministic unit (used for `(?:\.\d{2})?`). -/
def mOptU (u : List Char → Option (List Char)) : M := fun s =>
  match u s with
  | some t => [t, s]
  | none => [s]

/-- The unit `,\d{3}` of the thousands-separator star. -/
def uComma3 : List Char → Option (List Char)
  | ',' :: a :: b :: c :: rest =>
    if a.isDigit && b.isDigit && c.isDigit then some rest else none
  | _ => none

/-- The unit `\.\d{2}` of the optional cents part. -/
def uDot2 : List Char → Option (List Char)
  | '.' :: a :: b :: rest =>
    if a.isDigit && b.isDigit then some rest else none
  | _ => none

/-- A compiled pattern, split as `PRE(GROUP)`: every embedded pattern either
ends in its single capture group or captures the whole match (`pre = mEps`). -/
structure Pat where
  pre : M
  grp : M

/-- Try a pattern at the start of `s`.  Returns the captured group and the
remainder after the whole match, following Python `re` backtracking order:
prefix candidates are tried greedily and the first for which the group part
matches wins; the group then takes its own greedy-first candidate (nothing
follows the group, so any group candidate completes the match). -/
def matchAt (p : Pat) (s : List Char) : Option (List Char × List Char) :=
  (p.pre s).findSome? fun r1 =>
    match p.grp r1 with
    | r2 :: _ => some (r1.take (r1.length - r2.length), r2)
    | [] => none

/-- `re.search`: leftmost match wins.  All embedded patterns need at least one
character, so the empty-suffix position never matches. -/
def searchP (p : Pat) : List Char → Option (List Char × List Char)
  | [] => none
  | s@(_ :: t) =>
    match matchAt p s with
    | some m => some m
    | none => searchP p t

/-- `re.finditer` collecting each match's captured group; after a match the
scan resumes at the match end.  Fuelled by the input length: every embedded
pattern consumes at least one character per match, so the fuel never runs
out. -/
def findAllAux (p : Pat) : Nat → List Char → List (List Char)
  | 0, _ => []
  | _ + 1, [] => []
  | n + 1, s@(_ :: t) =>
    match matchAt p s with
    | some (g, rest) => g :: findAllAux p n rest
    | none => findAllAux p n t

/-- `re.finditer`, collecting captured groups in order. -/
def findAll (p : Pat) (s : List Char) : List (List Char) :=
  findAllAux p (s.length + 1) s

/-! ## The source's compiled pattern tables (`AIReceiptParser.__init__`) -/

/-- The class `[/‑]`. -/
def slashDashC (c : Char) : Bool := c = '/' || c = '-'

/-- Sequence a list of matchers. -/
def mSeqs (ms : List M) : M := ms.foldr mSeq mEps

/-- The amount capture group `(\d{1,3}(?:,\d{3})*(?:\.\d{2})?)`. -/
def numGroup : M := mSeqs [mRep isDigitC 1 3, mStarU uComma3, mOptU uDot2]

/-- The separator `\s*#?\s*:?\s*` of the labelled identifier patterns. -/
def hashColonSep : M :=
  mSeqs [mStar isPySpace, mOpt1 (fun c => c = '#'), mStar isPySpace,
    mOpt1 (fun c => c = ':'), mStar isPySpace]

/-- The separator `\s*:?\s*` of the two-word identifier patterns. -/
def colonSep : M :=
  mSeqs [mStar isPySpace, mOpt1 (fun c => c = ':'), mStar isPySpace]

/-- Identifier pattern `LABEL\s*#?\s*:?\s*([A-Z0-9-]+)`. -/
def idPat (label : String) : Pat :=
  ⟨mSeq (mLit label) hashColonSep, mPlus isAlnumDash⟩

/-- Identifier pattern `W1\s+W2\s*:?\s*([A-Z0-9-]+)`. -/
def idPat2 (w1 w2 : String) : Pat :=
  ⟨mSeqs [mLit w1, mPlus isPySpace, mLit w2, colonSep], mPlus isAlnumDash⟩

/-- The numeric date shape `\d{1,2}[/‑]\d{1,2}[/‑]\d{2,4}`. -/
def dateNumShape : M :=
  mSeqs [mRep isDigitC 1 2, mCls slashDashC, mRep isDigitC 1 2,
    mCls slashDashC, mRep isDigitC 2 4]

/-- `self.date_patterns`: the generic ordered date patterns (whole-match
capture): `\d{1,2}[/‑]\d{1,2}[/‑]\d{2,4}`, `\d{4}[/‑]\d{1,2}[/‑]\d{1,2}`,
`[A-Z][a-z]+\s+\d{1,2},?\s+\d{4}`, each compiled with `re.IGNORECASE`. -/
def date_patterns : List Pat :=
  [⟨mEps, dateNumShape⟩,
   ⟨mEps, mSeqs [mRep isDigitC 4 4, mCls slashDashC, mRep isDigitC 1 2,
     mCls slashDashC, mRep isDigitC 1 2]⟩,
   ⟨mEps, mSeqs [mCls isLetterC, mPlus isLetterC, mPlus isPySpace,
     mRep isDigitC 1 2, mOpt1 (fun c => c = ','), mPlus isPySpace,
     mRep isDigitC 4 4]⟩]

/-- Labelled amount pattern `LABEL[:\s]+[\$£€]?\s*(NUM)`. -/
def amountPat (label : String) : Pat :=
  ⟨mSeqs [mLit label, mPlus isColonSpace, mOpt1 isCurrencyC, mStar isPySpace],
    numGroup⟩

/-- `self.amount_patterns`: `Total[:\s]+[\$£€]?\s*(NUM)`,
`Amount[:\s]+[\$£€]?\s*(NUM)`, `[\$£€]\s*(NUM)`. -/
def amount_patterns : List Pat :=
  [amountPat "Total", amountPat "Amount",
   ⟨mSeq (mCls isCurrencyC) (mStar isPySpace), numGroup⟩]

/-- `self.invoice_patterns`. -/
def invoice_patterns : List Pat :=
  [idPat "Invoice", idPat "Claim", idPat "Bill", idPat "Receipt",
   idPat "Reference",
   ⟨mSeqs [mLit "Invoice", mPlus isPySpace, mLit "No",
     mOpt1 (fun c => c = '.'), mStar isPySpace, mOpt1 (fun c => c = ':'),
     mStar isPySpace], mPlus isAlnumDash⟩]

/-- `self.policy_patterns`. -/
def policy_patterns : List Pat :=
  [idPat "Policy", idPat2 "Policy" "Number", idPat2 "Member" "ID",
   idPat2 "Subscriber" "ID", idPat "Insurance", idPat "Account"]

/-- `self.event_date_patterns`: the labelled service/visit-date patterns.
Defined in `AIReceiptParser.__init__` (lines 152–158) — note that nothing in
the source ever consults this table. -/
def event_date_patterns : List Pat :=
  [⟨mSeqs [mLit "Date", mPlus isPySpace, mLit "of", mPlus isPySpace,
     mLit "Service", colonSep], dateNumShape⟩,
   ⟨mSeqs [mLit "Service", mPlus isPySpace, mLit "Date", colonSep],
     dateNumShape⟩,
   ⟨mSeq (mLit "DOS") colonSep, dateNumShape⟩,
   ⟨mSeqs [mLit "Treatment", mPlus isPySpace, mLit "Date", colonSep],
     dateNumShape⟩,
   ⟨mSeqs [mLit "Visit", mPlus isPySpace, mLit "Date", colonSep],
     dateNumShape⟩]

/-- The local `tax_patterns` of `_extract_tax_regex`. -/
def tax_patterns : List Pat :=
  [amountPat "Tax", amountPat "Sales Tax", amountPat "VAT"]

/-! ## Numeric and date parsing -/

/-- Value of a digit string. -/
def digitsToNat (cs : List Char) : Nat :=
  cs.foldl (fun n c => n * 10 + (c.toNat - 48)) 0

/-- Python `float()` restricted to the unsigned finite-decimal strings the
capture groups can produce (`digits`, `digits.digits`); anything else fails
(modelling `ValueError`). -/
def parseDecimal (cs : List Char) : Option ℚ :=
  let ip := cs.takeWhile isDigitC
  let rest := cs.dropWhile isDigitC
  match rest with
  | [] => if ip.isEmpty then none else some (digitsToNat ip : ℚ)
  | '.' :: fr =>
    if fr.all isDigitC && !(ip.isEmpty && fr.isEmpty) then
      some ((digitsToNat ip : ℚ) + (digitsToNat fr : ℚ) / ((10 : ℚ) ^ fr.length))
    else none
  | _ => none

/-- Split a character list at every separator satisfying `p`. -/
def splitOnP (p : Char → Bool) : List Char → List (List Char)
  | [] => [[]]
  | c :: r =>
    if p c then [] :: splitOnP p r
    else
      match splitOnP p r with
      | [] => [[c]]
      | g :: gs => (c :: g) :: gs

/-- Zero-padded two-digit rendering. -/
def pad2 (n : Nat) : String := if n < 10 then "0" ++ toString n else toString n

/-- Zero-padded four-digit rendering. -/
def pad4 (n : Nat) : String :=
  if n < 10 then "000" ++ toString n
  else if n < 100 then "00" ++ toString n
  else if n < 1000 then "0" ++ toString n
  else toString n

/-- `strftime` of `%Y-%m-%d`. -/
def fmtDate (y m d : Nat) : String :=
  pad4 y ++ "-" ++ pad2 m ++ "-" ++ pad2 d

/-- English month names as understood by the date parser (full names and
three-letter abbreviations, case-insensitive). -/
def monthFromName (s : List Char) : Option Nat :=
  let t := String.mk (s.map Char.toLower)
  if t = "january" || t = "jan" then some 1
  else if t = "february" || t = "feb" then some 2
  else if t = "march" || t = "mar" then some 3
  else if t = "april" || t = "apr" then some 4
  else if t = "may" then some 5
  else if t = "june" || t = "jun" then some 6
  else if t = "july" || t = "jul" then some 7
  else if t = "august" || t = "aug" then some 8
  else if t = "september" || t = "sep" then some 9
  else if t = "october" || t = "oct" then some 10
  else if t = "november" || t = "nov" then some 11
  else if t = "december" || t = "dec" then some 12
  else none

/-- Numeric slash/dash dates: four-digit-first is read `YYYY-MM-DD`;
otherwise month-first (`MM/DD/YYYY`, the parser's US default), falling back
to day-first when the month position is impossible; two-digit years resolve
into the 2000s. -/
def numericDate (parts : List (List Char)) : Option String :=
  match parts with
  | [a, b, c] =>
    if !a.isEmpty && !b.isEmpty && !c.isEmpty && (a ++ b ++ c).all isDigitC then
      if a.length = 4 then
        let y := digitsToNat a
        let m := digitsToNat b
        let d := digitsToNat c
        if 1 ≤ m && m ≤ 12 && 1 ≤ d && d ≤ 31 then some (fmtDate y m d)
        else none
      else
        let x := digitsToNat a
        let z := digitsToNat b
        let yRaw := digitsToNat c
        let y := if yRaw < 100 then 2000 + yRaw else yRaw
        if 1 ≤ x && x ≤ 12 && 1 ≤ z && z ≤ 31 then some (fmtDate y x z)
        else if 1 ≤ z && z ≤ 12 && 1 ≤ x && x ≤ 31 then some (fmtDate y z x)
        else none
    else none
  | _ => none

/-- `AIReceiptParser._parse_date`.  The body defers to the third-party
`dateparser` library (an external dependency, not code of this repository);
its behaviour is modelled here on exactly the date shapes the parser's
patterns can produce — numeric slash/dash forms and the `Month DD, YYYY`
prose form — returning `none` (the source's `None`) elsewhere. -/
def parse_date (s : String) : Option String :=
  let t := stripChars s.data
  if t.any (fun c => c.isAlpha) then
    match (splitOnP (fun c => isPySpace c || c = ',') t).filter (fun g => !g.isEmpty) with
    | [mon, d, y] =>
      if d.all isDigitC && y.all isDigitC && y.length = 4 then
        match monthFromName mon with
        | some m =>
          let dv := digitsToNat d
          if 1 ≤ dv && dv ≤ 31 then some (fmtDate (digitsToNat y) m dv)
          else none
        | none => none
      else none
    | _ => none
  else numericDate (splitOnP slashDashC t)

/-! ## Email metadata and the regex fallback extractors
(`AIReceiptParser._extract_*_regex`) -/

/-- The optional `email_data` dictionary (`subject`, `from`, `date` keys). -/
structure EmailData where
  subject : Option String
  sender : Option String
  date : Option String

/-- Python truthiness of an optional string (`None` and `""` are falsy). -/
def optStrTruthy : Option String → Bool
  | none => false
  | some s => s ≠ ""

/-- `AIReceiptParser._extract_date_regex` (lines 357–371): first generic date
pattern that both matches and parses wins; otherwise the email date, if
present, is parsed (its parse result is returned even when `None`). -/
def extract_date_regex (text : String) (email : Option EmailData) : Option String :=
  match date_patterns.findSome? (fun p =>
      (searchP p text.data).bind (fun m => parse_date (String.mk m.1))) with
  | some d => some d
  | none =>
    match email with
    | some e => if optStrTruthy e.date then parse_date (e.date.getD "") else none
    | none => none

/-- The parsed-amount candidates of `_extract_amount_regex`: every
`finditer` group of every amount pattern, commas stripped, parsed as a
decimal, parse failures silently discarded. -/
def amountCandidates (text : String) : List ℚ :=
  (amount_patterns.flatMap (fun p => findAll p text.data)).filterMap
    (fun g => parseDecimal (g.filter (fun c => c ≠ ',')))

/-- Python `max` on a nonempty list. -/
def maxOfList (a : ℚ) (l : List ℚ) : ℚ := l.foldl max a

/-- `AIReceiptParser._extract_amount_regex` (lines 373–385): the maximum of
all parsed candidates, or `None` when there is none. -/
def extract_amount_regex (text : String) : Option ℚ :=
  match amountCandidates text with
  | [] => none
  | a :: rest => some (maxOfList a rest)

/-- `AIReceiptParser._extract_invoice_regex`: first pattern (in table order)
with a match anywhere wins; the group is stripped and capped to 50
characters. -/
def extract_invoice_regex (text : String) : Option String :=
  invoice_patterns.findSome? fun p =>
    (searchP p text.data).map (fun m => String.mk ((stripChars m.1).take 50))

/-- `AIReceiptParser._extract_policy_regex`. -/
def extract_policy_regex (text : String) : Option String :=
  policy_patterns.findSome? fun p =>
    (searchP p text.data).map (fun m => String.mk ((stripChars m.1).take 50))

/-- `AIReceiptParser._extract_tax_regex`: first pattern whose first match
parses wins (a parse failure moves on to the next pattern). -/
def extract_tax_regex (text : String) : Option ℚ :=
  tax_patterns.findSome? fun p =>
    (searchP p text.data).bind
      (fun m => parseDecimal (m.1.filter (fun c => c ≠ ',')))

/-- The `re.sub(r'^Re:|^Fwd:|^FW:', '', subject)` step: the anchor restricts
the substitution to position 0, so at most one prefix tag is removed,
alternatives tried in pattern order, case-insensitively. -/
def removeReplyTag (s : List Char) : List Char :=
  match s with
  | a :: b :: rest =>
    if ciEq a 'R' && ciEq b 'e' then
      match rest with
      | c :: r => if c = ':' then r else s
      | _ => s
    else if ciEq a 'F' && ciEq b 'w' then
      match rest with
      | c :: d :: r => if ciEq c 'd' && d = ':' then r else if c = ':' then d :: r else s
      | c :: r => if c = ':' then r else s
      | _ => s
    else s
  | _ => s

/-- `re.match(r'^(.+?)\s*<', from_field)` followed by `.strip()`: the lazy
group is the shortest nonempty newline-free prefix after which (skipping
whitespace) a `<` follows. -/
def fromDisplayName (s : List Char) : Option String :=
  go [] s
where
  /-- Is the remainder whitespace followed by `<`? -/
  wsThenLt (r : List Char) : Bool :=
    match r.dropWhile isPySpace with
    | '<' :: _ => true
    | _ => false
  go (pre : List Char) : List Char → Option String
    | [] => none
    | c :: r =>
      if c = '\n' then none
      else if wsThenLt r then some (String.mk (stripChars (c :: pre).reverse))
      else go (c :: pre) r

/-- `AIReceiptParser._extract_vendor_regex` (lines 403–426): email subject
(minus one reply tag) if short enough, else the display name before `<` in
the sender, else the first nonempty line (< 100 chars) of the first five
lines. -/
def extract_vendor_regex (text : String) (email : Option EmailData) : Option String :=
  let subjectBranch : Option String :=
    match email with
    | some e =>
      if optStrTruthy e.subject then
        let subj := String.mk (stripChars (removeReplyTag (e.subject.getD "").data))
        if subj ≠ "" && subj.length < 100 then some subj else none
      else none
    | none => none
  match subjectBranch with
  | some v => some v
  | none =>
    let fromBranch : Option String :=
      match email with
      | some e =>
        if optStrTruthy e.sender then fromDisplayName (e.sender.getD "").data
        else none
      | none => none
    match fromBranch with
    | some v => some v
    | none =>
      ((text.splitOn "\n").take 5).findSome? fun l =>
        let t := pyStrip l
        if t ≠ "" && t.length < 100 then some t else none

/-! ## JSON values and `_validate_extracted_data` -/

/-- JSON values as produced by `json.loads` (arrays/objects never reach the
validator's field reads in a way the claims exercise, so nested values are
not modelled). -/
inductive JsonVal where
  | jnull
  | jstr (s : String)
  | jnum (q : ℚ)
  | jbool (b : Bool)
  deriving DecidableEq

/-- A decoded JSON object (Python dict — keys unique, first association
wins). -/
abbrev JsonObj := List (String × JsonVal)

/-- `dict.get`. -/
def jget (o : JsonObj) (k : String) : Option JsonVal :=
  (o.find? (fun p => p.1 = k)).map (fun p => p.2)

/-- Python truthiness of a JSON value. -/
def jtruthy : JsonVal → Bool
  | .jnull => false
  | .jstr s => s ≠ ""
  | .jnum q => q ≠ 0
  | .jbool b => b

/-- Python `str()`.  Strings pass through unchanged; the other renderings are
only reached when the model emits a non-string in a date slot, which no claim
exercises (numbers are rendered approximately). -/
def jToString : JsonVal → String
  | .jstr s => s
  | .jnull => "None"
  | .jbool b => if b then "True" else "False"
  | .jnum q => toString q.num ++ "/" ++ toString q.den

/-- Python `float()` on a JSON value; `none` models the raised
`ValueError`/`TypeError` that `_validate_extracted_data` catches. -/
def jToFloat : JsonVal → Option ℚ
  | .jnum q => some q
  | .jbool b => some (if b then 1 else 0)
  | .jstr s => parseDecimal (stripChars s.data)
  | .jnull => none

/-- A date slot of `_validate_extracted_data`: parsed when truthy and not the
literal string `"null"`. -/
def validDate (v : Option JsonVal) : Option String :=
  match v with
  | none => none
  | some v => if jtruthy v && v ≠ .jstr "null" then parse_date (jToString v) else none

/-- An amount slot of `_validate_extracted_data`: `float()` when not `None`
and not the literal string `"null"`, parse failures become `None`. -/
def validAmount (v : Option JsonVal) : Option ℚ :=
  match v with
  | none => none
  | some .jnull => none
  | some v => if v = .jstr "null" then none else jToFloat v

/-- A string slot of `_validate_extracted_data`: `str(...).strip()[:200]`
when truthy and not the literal string `"null"`. -/
def validStr (v : Option JsonVal) : Option String :=
  match v with
  | none => none
  | some v =>
    if jtruthy v && v ≠ .jstr "null" then
      some ((pyStrip (jToString v)).take 200)
    else none

/-- The seven extracted fields (the canonical output shape; keys as in the
source result dictionary). -/
structure FieldSet where
  event_date : Option String
  submission_date : Option String
  claim_amount : Option ℚ
  invoice_number : Option String
  policy_number : Option String
  vendor : Option String
  tax : Option ℚ
  deriving DecidableEq

/-- `AIReceiptParser._validate_extracted_data` (lines 299–339). -/
def validate_extracted_data (o : JsonObj) : FieldSet where
  event_date := validDate (jget o "event_date")
  submission_date := validDate (jget o "submission_date")
  claim_amount := validAmount (jget o "claim_amount")
  invoice_number := validStr (jget o "invoice_number")
  policy_number := validStr (jget o "policy_number")
  vendor := validStr (jget o "vendor")
  tax := validAmount (jget o "tax")

/-! ## The vLLM client (`src/src/vllm_client.py`)

Exception kinds mirror the Python classes: `VLLMConnectionError`,
`VLLMTimeoutError` and the base `VLLMClientError` (all subclasses of
`VLLMClientError`), plus the raw transport exceptions `aiohttp.ClientError`
and `asyncio.TimeoutError` that `generate_async` wraps. -/

inductive PyExc where
  | aiohttpClientError
  | asyncioTimeoutError
  | vllmConnectionError
  | vllmTimeoutError
  | vllmClientError
  deriving DecidableEq

/-- `isinstance(e, VLLMClientError)` — the only thing
`AIReceiptParser.extract_fields` catches. -/
def PyExc.isVLLMClientError : PyExc → Bool
  | .vllmConnectionError => true
  | .vllmTimeoutError => true
  | .vllmClientError => true
  | _ => false

/-- The decorator's `retry_if_exception_type((aiohttp.ClientError,
asyncio.TimeoutError))` predicate (`vllm_client.py` line 112): true exactly
for the raw transport exception types — the `VLLM*` wrappers are not
subclasses of either. -/
def retryableType : PyExc → Bool
  | .aiohttpClientError => true
  | .asyncioTimeoutError => true
  | _ => false

/-- One choice of the completions response (`text`, `finish_reason`; absent
keys model `.get` defaults). -/
structure Choice where
  text : Option String
  finish_reason : Option String

/-- The completions response body (`choices`; `model`/`usage` play no part in
any claim). -/
structure CompletionsBody where
  choices : List Choice

/-- Outcome of one HTTP attempt inside `generate_async`: the post raises
`asyncio.TimeoutError`, raises `aiohttp.ClientError`, or yields a response
with a status and body. -/
inductive HttpOutcome where
  | timeoutErr
  | clientErr
  | response (status : Nat) (body : CompletionsBody)

/-- The response the client hands back (`VLLMResponse`; `model`/`usage`
omitted — no claim touches them). -/
structure VLLMResp where
  text : String
  confidence : ℚ
  deriving DecidableEq

/-- The body of `generate_async` for one attempt (`vllm_client.py` lines
156–188): non-200 → `VLLMConnectionError`; empty `choices` →
`VLLMClientError`; otherwise text is `choices[0].get("text","").strip()` and
confidence is 0.9 on `finish_reason == "stop"`, 0.7 otherwise; the raw
`asyncio.TimeoutError` / `aiohttp.ClientError` are wrapped into
`VLLMTimeoutError` / `VLLMConnectionError` inside the function body. -/
def attemptOnce (o : HttpOutcome) : Except PyExc VLLMResp :=
  match o with
  | .timeoutErr => .error .vllmTimeoutError
  | .clientErr => .error .vllmConnectionError
  | .response status body =>
    if status ≠ 200 then .error .vllmConnectionError
    else
      match body.choices with
      | [] => .error .vllmClientError
      | c :: _ =>
        .ok { text := pyStrip (c.text.getD "")
              confidence := if c.finish_reason.getD "" = "stop" then 9/10 else 7/10 }

/-- Tenacity's loop for `@retry(stop=stop_after_attempt(stop), ...,
reraise=True)`: attempt `i` runs; on success return; on an error that the
predicate accepts, retry while attempts remain, else re-raise.  Also returns
the number of attempts made. -/
def retryCallGo {A : Type} (retryable : PyExc → Bool)
    (attempt : Nat → Except PyExc A) : Nat → Nat → Except PyExc A × Nat
  | 0, i =>
    match attempt i with
    | .ok a => (.ok a, i)
    | .error e => (.error e, i)
  | rem + 1, i =>
    match attempt i with
    | .ok a => (.ok a, i)
    | .error e =>
      if retryable e then retryCallGo retryable attempt rem (i + 1)
      else (.error e, i)

/-- Tenacity `@retry` with `stop_after_attempt stop`, 1-based attempt
numbering. -/
def retryCall {A : Type} (stop : Nat) (retryable : PyExc → Bool)
    (attempt : Nat → Except PyExc A) : Except PyExc A × Nat :=
  retryCallGo retryable attempt (stop - 1) 1

/-- `VLLMClient.generate` → `generate_async` with its decorator
(`vllm_client.py` lines 109–114): the stop condition is the literal
`stop_after_attempt(3)` — the constructor's `max_retries` is stored
(line 73) but never consulted by the decorator — and the retry predicate
accepts only the raw transport exception types, which the body has already
wrapped.  `transport i` is the outcome of the i-th HTTP attempt; the attempt
count made is returned alongside. -/
def generateWithCount (maxRetries : Nat) (transport : Nat → HttpOutcome) :
    Except PyExc VLLMResp × Nat :=
  retryCall 3 retryableType (fun i => attemptOnce (transport i))

/-! ## The arbitration engine (`AIReceiptParser.extract_fields`) -/

/-- The behaviour, for the current call, of the duck-typed client object held
in `self.vllm_client`: the outcome of its `generate(...)` call and of
`extract_json_from_response` on a given generated text.  The JSON decoder is
a fixed function of the text (the source's regex-plus-`json.loads` scan),
kept abstract because its input originates from the network; the repository's
own client is the instance `vllmClientBeh` below. -/
structure ClientBeh where
  generate : Except PyExc VLLMResp
  decode : String → Option JsonObj

/-- The engine driving the repository's `VLLMClient`. -/
def vllmClientBeh (maxRetries : Nat) (transport : Nat → HttpOutcome)
    (decode : String → Option JsonObj) : ClientBeh where
  generate := (generateWithCount maxRetries transport).1
  decode := decode

/-- `AIReceiptParser._extract_with_ai` (lines 230–269): generate (prompt
construction and truncation do not alter the modelled outcome), decode the
response text — a failed decode raises `VLLMClientError` — then validate;
the cleaned data carries `response.confidence`. -/
def extract_with_ai (beh : ClientBeh) (text : String) :
    Except PyExc (FieldSet × ℚ) :=
  match beh.generate with
  | .error e => .error e
  | .ok resp =>
    match beh.decode resp.text with
    | none => .error .vllmClientError
    | some o => .ok (validate_extracted_data o, resp.confidence)

/-- The full result dictionary of `extract_fields`: the seven fields plus
`extraction_method`, `confidence` and `raw_text`. -/
structure ExtractionResult where
  event_date : Option String
  submission_date : Option String
  claim_amount : Option ℚ
  invoice_number : Option String
  policy_number : Option String
  vendor : Option String
  tax : Option ℚ
  extraction_method : String
  confidence : ℚ
  raw_text : String
  deriving DecidableEq

/-- The initial result dictionary (lines 175–186). -/
def initResult (text : String) : ExtractionResult where
  event_date := none
  submission_date := none
  claim_amount := none
  invoice_number := none
  policy_number := none
  vendor := none
  tax := none
  extraction_method := "none"
  confidence := 0
  raw_text := if text = "" then "" else text.take 500

/-- The AI merge step (lines 197–203): `result[key] = ai_result[key]` for
every non-`None` AI value, then method `ai` and the AI confidence. -/
def keepNewIfSome {A : Type} (old new : Option A) : Option A :=
  match new with
  | some v => some v
  | none => old

/-- Apply the adopted AI result to the running result. -/
def applyAiMerge (r : ExtractionResult) (fs : FieldSet) (conf : ℚ) :
    ExtractionResult where
  event_date := keepNewIfSome r.event_date fs.event_date
  submission_date := keepNewIfSome r.submission_date fs.submission_date
  claim_amount := keepNewIfSome r.claim_amount fs.claim_amount
  invoice_number := keepNewIfSome r.invoice_number fs.invoice_number
  policy_number := keepNewIfSome r.policy_number fs.policy_number
  vendor := keepNewIfSome r.vendor fs.vendor
  tax := keepNewIfSome r.tax fs.tax
  extraction_method := "ai"
  confidence := conf
  raw_text := r.raw_text

/-- `AIReceiptParser._has_meaningful_data`: any of the four anchor fields is
present. -/
def has_meaningful_data (r : ExtractionResult) : Bool :=
  r.claim_amount.isSome || r.invoice_number.isSome || r.vendor.isSome ||
    r.event_date.isSome

/-- The regex extractor's result dictionary (`_extract_with_regex`,
lines 271–297), with its fixed confidence key. -/
structure RegexResult where
  event_date : Option String
  submission_date : Option String
  claim_amount : Option ℚ
  invoice_number : Option String
  policy_number : Option String
  vendor : Option String
  tax : Option ℚ
  confidence : ℚ
  deriving DecidableEq

/-- The result dictionary built at lines 282–291 of `_extract_with_regex`:
the individual regex extractors and the fixed confidence 0.6. -/
def regexBase (text : String) (email : Option EmailData) : RegexResult where
  event_date := extract_date_regex text email
  submission_date := none
  claim_amount := extract_amount_regex text
  invoice_number := extract_invoice_regex text
  policy_number := extract_policy_regex text
  vendor := extract_vendor_regex text email
  tax := extract_tax_regex text
  confidence := 3/5

/-- `AIReceiptParser._extract_with_regex`: the base dictionary plus the late
`submission_date := event_date` default (guarded by Python truthiness of
both, lines 293–295). -/
def extract_with_regex (text : String) (email : Option EmailData) : RegexResult :=
  if optStrTruthy (regexBase text email).event_date &&
      !(optStrTruthy (regexBase text email).submission_date) then
    { regexBase text email with
        submission_date := (regexBase text email).event_date }
  else regexBase text email

/-- The pattern-fallback merge (lines 212–226): fill only still-`None`
fields. -/
def fillIfNone {A : Type} (old new : Option A) : Option A :=
  match old with
  | some v => some v
  | none => new

/-- The additive field fill of lines 216–219. -/
def fillAllFields (r : ExtractionResult) (rx : RegexResult) : ExtractionResult :=
  { r with
    event_date := fillIfNone r.event_date rx.event_date
    submission_date := fillIfNone r.submission_date rx.submission_date
    claim_amount := fillIfNone r.claim_amount rx.claim_amount
    invoice_number := fillIfNone r.invoice_number rx.invoice_number
    policy_number := fillIfNone r.policy_number rx.policy_number
    vendor := fillIfNone r.vendor rx.vendor
    tax := fillIfNone r.tax rx.tax }

/-- Apply the regex fallback to the running result: additive field fill, then
method/confidence finalization (lines 221–226) — `regex`/its confidence if no
AI result was adopted, else `hybrid`/the mean. -/
def applyRegexMerge (r : ExtractionResult) (rx : RegexResult) : ExtractionResult :=
  if r.extraction_method = "none" then
    { fillAllFields r rx with extraction_method := "regex", confidence := rx.confidence }
  else
    { fillAllFields r rx with extraction_method := "hybrid"
                              confidence := (r.confidence + rx.confidence) / 2 }

/-- The model-attempt step of `extract_fields` (lines 191–209): with a
configured client, run `_extract_with_ai` inside `try/except VLLMClientError`
(any other exception propagates); adopt the result when its confidence
exceeds 0.5 (the cleaned dictionary is always truthy — it always carries its
eight keys); the boolean records whether the early return at line 207
fires (`_has_meaningful_data`). -/
def aiStep (client : Option ClientBeh) (text : String) :
    Except PyExc (ExtractionResult × Bool) :=
  match client with
  | none => .ok (initResult text, false)
  | some beh =>
    match extract_with_ai beh text with
    | .ok (fs, conf) =>
      if 1/2 < conf then
        let r := applyAiMerge (initResult text) fs conf
        .ok (r, has_meaningful_data r)
      else .ok (initResult text, false)
    | .error e =>
      if e.isVLLMClientError then .ok (initResult text, false)
      else .error e

/-- `AIReceiptParser.extract_fields` (lines 164–228): empty-input check, the
model attempt, the early return on meaningful AI data, and the regex
fallback (when `use_fallback`). -/
def extract_fields (use_fallback : Bool) (client : Option ClientBeh)
    (text : String) (email : Option EmailData) : Except PyExc ExtractionResult :=
  if pyStrip text = "" then .ok (initResult text)
  else
    match aiStep client text with
    | .error e => .error e
    | .ok (r, early) =>
      if early then .ok r
      else if use_fallback then
        .ok (applyRegexMerge r (extract_with_regex text email))
      else .ok r

/-! ## Spec-side definitions used for refinement comparisons -/

/-- Modelled from the spec: the event-date extraction it describes — "a
higher-priority sub-pass first searches for service/visit-dated phrases
(labeled `date of service`, `DOS`, `treatment date`, etc.) before falling
back to the generic date scan".  Uses the source's own (dead)
`event_date_patterns` table for the labelled sub-pass. -/
def specEventDateExtract (text : String) (email : Option EmailData) : Option String :=
  match event_date_patterns.findSome? (fun p =>
      (searchP p text.data).bind (fun m => parse_date (String.mk m.1))) with
  | some d => some d
  | none => extract_date_regex text email

/-- The generic-only date scan (no labelled sub-pass): the first generic date
pattern that matches and parses, then the email-date fallback. -/
def genericDateScan (text : String) (email : Option EmailData) : Option String :=
  match date_patterns.findSome? (fun p =>
      (searchP p text.data).bind (fun m => parse_date (String.mk m.1))) with
  | some d => some d
  | none =>
    match email with
    | some e => if optStrTruthy e.date then parse_date (e.date.getD "") else none
    | none => none

/-! ## Helper lemmas -/

/-- Python `max` is a member of its argument list. -/
lemma maxOfList_mem (a : ℚ) (l : List ℚ) : maxOfList a l = a ∨ maxOfList a l ∈ l := by
  induction l generalizing a with
  | nil => left; rfl
  | cons b t ih =>
    have hstep : maxOfList a (b :: t) = maxOfList (max a b) t := rfl
    rcases ih (max a b) with h | h
    · rcases max_choice a b with hm | hm
      · left; rw [hstep, h, hm]
      · right; rw [hstep, h, hm]; exact List.mem_cons_self b t
    · right
      rw [hstep]
      exact List.mem_cons_of_mem b h

/-- Python `max` bounds every element of its argument list. -/
lemma le_maxOfList (a : ℚ) (l : List ℚ) :
    a ≤ maxOfList a l ∧ ∀ q ∈ l, q ≤ maxOfList a l := by
  induction l generalizing a with
  | nil => exact ⟨le_refl a, by intro q hq; cases hq⟩
  | cons b t ih =>
    obtain ⟨h1, h2⟩ := ih (max a b)
    refine ⟨le_trans (le_max_left a b) h1, ?_⟩
    intro q hq
    rcases List.mem_cons.mp hq with rfl | hq
    · exact le_trans (le_max_right a q) h1
    · exact h2 q hq

/-- Every successful attempt of `generate_async` carries confidence 0.9 or
0.7. -/
lemma attemptOnce_ok_confidence {o : HttpOutcome} {r : VLLMResp}
    (h : attemptOnce o = .ok r) : r.confidence = 9/10 ∨ r.confidence = 7/10 := by
  cases o with
  | timeoutErr => cases h
  | clientErr => cases h
  | response status body =>
    simp only [attemptOnce] at h
    split at h
    · cases h
    · cases hc : body.choices with
      | nil => rw [hc] at h; cases h
      | cons c rest =>
        rw [hc] at h
        cases h
        by_cases hf : c.finish_reason.getD "" = "stop"
        · left; simp [hf]
        · right; simp [hf]

/-- Every failed attempt of `generate_async` raises a `VLLMClientError`
subclass (the body wraps the raw transport exceptions before they escape). -/
lemma attemptOnce_error_isVLLM {o : HttpOutcome} {e : PyExc}
    (h : attemptOnce o = .error e) : e.isVLLMClientError = true := by
  cases o with
  | timeoutErr => cases h; rfl
  | clientErr => cases h; rfl
  | response status body =>
    simp only [attemptOnce] at h
    split at h
    · cases h; rfl
    · cases hc : body.choices with
      | nil => rw [hc] at h; cases h; rfl
      | cons c rest => rw [hc] at h; cases h

/-- A success of the retry loop is a success of one of its attempts. -/
lemma retryCallGo_ok {A : Type} {retryable : PyExc → Bool}
    {attempt : Nat → Except PyExc A} {a : A} :
    ∀ rem i n, retryCallGo retryable attempt rem i = (.ok a, n) →
      ∃ j, attempt j = .ok a := by
  intro rem
  induction rem with
  | zero =>
    intro i n h
    simp only [retryCallGo] at h
    cases ha : attempt i with
    | ok b => rw [ha] at h; cases h; exact ⟨i, ha⟩
    | error e => rw [ha] at h; cases h
  | succ r ih =>
    intro i n h
    simp only [retryCallGo] at h
    cases ha : attempt i with
    | ok b => rw [ha] at h; cases h; exact ⟨i, ha⟩
    | error e =>
      simp only [ha] at h
      by_cases hr : retryable e
      · rw [if_pos hr] at h
        exact ih (i + 1) n h
      · rw [if_neg hr] at h; cases h

/-- A failure of the retry loop is a failure of one of its attempts. -/
lemma retryCallGo_error {A : Type} {retryable : PyExc → Bool}
    {attempt : Nat → Except PyExc A} {e : PyExc} :
    ∀ rem i n, retryCallGo retryable attempt rem i = (.error e, n) →
      ∃ j, attempt j = .error e := by
  intro rem
  induction rem with
  | zero =>
    intro i n h
    simp only [retryCallGo] at h
    cases ha : attempt i with
    | ok b => rw [ha] at h; cases h
    | error e' => rw [ha] at h; cases h; exact ⟨i, ha⟩
  | succ r ih =>
    intro i n h
    simp only [retryCallGo] at h
    cases ha : attempt i with
    | ok b => rw [ha] at h; cases h
    | error e' =>
      simp only [ha] at h
      by_cases hr : retryable e'
      · rw [if_pos hr] at h
        exact ih (i + 1) n h
      · rw [if_neg hr] at h; cases h; exact ⟨i, ha⟩

/-- Every error escaping the repository client's `generate` is a
`VLLMClientError` subclass. -/
lemma generate_error_isVLLM {m : Nat} {transport : Nat → HttpOutcome} {e : PyExc}
    (h : (generateWithCount m transport).1 = .error e) :
    e.isVLLMClientError = true := by
  have h2 : retryCallGo retryableType (fun i => attemptOnce (transport i)) (3 - 1) 1 =
      (.error e, (generateWithCount m transport).2) := by
    unfold generateWithCount retryCall at h ⊢
    exact Prod.ext h rfl
  obtain ⟨j, hj⟩ := retryCallGo_error _ _ _ h2
  exact attemptOnce_error_isVLLM hj

/-- Every response escaping the repository client's `generate` carries
confidence 0.9 or 0.7. -/
lemma generate_ok_confidence {m : Nat} {transport : Nat → HttpOutcome} {r : VLLMResp}
    (h : (generateWithCount m transport).1 = .ok r) :
    r.confidence = 9/10 ∨ r.confidence = 7/10 := by
  have h2 : retryCallGo retryableType (fun i => attemptOnce (transport i)) (3 - 1) 1 =
      (.ok r, (generateWithCount m transport).2) := by
    unfold generateWithCount retryCall at h ⊢
    exact Prod.ext h rfl
  obtain ⟨j, hj⟩ := retryCallGo_ok _ _ _ h2
  exact attemptOnce_ok_confidence hj

/-- Every error escaping `_extract_with_ai` over the repository client is a
`VLLMClientError` subclass (transport errors arrive wrapped; a decode failure
raises the base `VLLMClientError`). -/
lemma extract_with_ai_error_isVLLM {m : Nat} {transport : Nat → HttpOutcome}
    {decode : String → Option JsonObj} {text : String} {e : PyExc}
    (h : extract_with_ai (vllmClientBeh m transport decode) text = .error e) :
    e.isVLLMClientError = true := by
  cases hg : (vllmClientBeh m transport decode).generate with
  | error e' =>
    simp only [extract_with_ai, hg] at h
    cases h
    exact generate_error_isVLLM hg
  | ok resp =>
    simp only [extract_with_ai, hg] at h
    cases hd : (vllmClientBeh m transport decode).decode resp.text with
    | none => rw [hd] at h; cases h; rfl
    | some o => rw [hd] at h; cases h

/-- A successful `_extract_with_ai` over the repository client returns the
response's confidence. -/
lemma extract_with_ai_ok_confidence {m : Nat} {transport : Nat → HttpOutcome}
    {decode : String → Option JsonObj} {text : String} {fs : FieldSet} {conf : ℚ}
    (h : extract_with_ai (vllmClientBeh m transport decode) text = .ok (fs, conf)) :
    conf = 9/10 ∨ conf = 7/10 := by
  cases hg : (vllmClientBeh m transport decode).generate with
  | error e' => simp only [extract_with_ai, hg] at h; cases h
  | ok resp =>
    simp only [extract_with_ai, hg] at h
    cases hd : (vllmClientBeh m transport decode).decode resp.text with
    | none => rw [hd] at h; cases h
    | some o =>
      rw [hd] at h
      cases h
      exact generate_ok_confidence hg

/-- From a raised `aiStep` error, recover the failed model attempt: only a
non-`VLLMClientError` escaping `_extract_with_ai` propagates. -/
lemma aiStep_error_cases {client : Option ClientBeh} {text : String} {e : PyExc}
    (h : aiStep client text = .error e) :
    ∃ beh, client = some beh ∧ extract_with_ai beh text = .error e ∧
      e.isVLLMClientError = false := by
  cases client with
  | none => simp only [aiStep] at h; cases h
  | some beh =>
    simp only [aiStep] at h
    cases hai : extract_with_ai beh text with
    | ok p =>
      obtain ⟨fs, conf⟩ := p
      simp only [hai] at h
      by_cases hc : (1 : ℚ)/2 < conf
      · rw [if_pos hc] at h; cases h
      · rw [if_neg hc] at h; cases h
    | error e' =>
      simp only [hai] at h
      by_cases hv : e'.isVLLMClientError
      · rw [if_pos hv] at h; cases h
      · rw [if_neg hv] at h
        cases h
        exact ⟨beh, rfl, hai, Bool.not_eq_true _ ▸ hv⟩

/-- The two possible successful outcomes of `aiStep`: nothing adopted (the
untouched initial result), or an adopted model result merged in. -/
lemma aiStep_ok_cases {client : Option ClientBeh} {text : String}
    {r : ExtractionResult} {early : Bool}
    (h : aiStep client text = .ok (r, early)) :
    (r = initResult text ∧ early = false) ∨
    (∃ beh fs conf, client = some beh ∧ extract_with_ai beh text = .ok (fs, conf) ∧
      (1 : ℚ)/2 < conf ∧ r = applyAiMerge (initResult text) fs conf ∧
      early = has_meaningful_data r) := by
  cases client with
  | none =>
    simp only [aiStep] at h
    cases h
    exact Or.inl ⟨rfl, rfl⟩
  | some beh =>
    simp only [aiStep] at h
    cases hai : extract_with_ai beh text with
    | ok p =>
      obtain ⟨fs, conf⟩ := p
      simp only [hai] at h
      by_cases hc : (1 : ℚ)/2 < conf
      · rw [if_pos hc] at h
        cases h
        exact Or.inr ⟨beh, fs, conf, rfl, hai, hc, rfl, rfl⟩
      · rw [if_neg hc] at h
        cases h
        exact Or.inl ⟨rfl, rfl⟩
    | error e =>
      simp only [hai] at h
      by_cases hv : e.isVLLMClientError
      · rw [if_pos hv] at h
        cases h
        exact Or.inl ⟨rfl, rfl⟩
      · rw [if_neg hv] at h; cases h

/-- Over the repository's client, `aiStep` never raises. -/
lemma aiStep_vllm_isOk (m : Nat) (transport : Nat → HttpOutcome)
    (decode : String → Option JsonObj) (text : String) :
    ∃ p, aiStep (some (vllmClientBeh m transport decode)) text = .ok p := by
  cases hai : extract_with_ai (vllmClientBeh m transport decode) text with
  | ok q =>
    obtain ⟨fs, conf⟩ := q
    by_cases hc : (1 : ℚ)/2 < conf
    · exact ⟨_, by simp only [aiStep, hai]; rw [if_pos hc]⟩
    · exact ⟨_, by simp only [aiStep, hai]; rw [if_neg hc]⟩
  | error e =>
    have hv := extract_with_ai_error_isVLLM hai
    exact ⟨(initResult text, false), by simp only [aiStep, hai]; rw [if_pos hv]⟩

/-- A failed model attempt leaves `aiStep` at the untouched initial result. -/
lemma aiStep_vllm_error {m : Nat} {transport : Nat → HttpOutcome}
    {decode : String → Option JsonObj} {text : String} {e : PyExc}
    (hai : extract_with_ai (vllmClientBeh m transport decode) text = .error e) :
    aiStep (some (vllmClientBeh m transport decode)) text =
      .ok (initResult text, false) := by
  have hv := extract_with_ai_error_isVLLM hai
  simp only [aiStep, hai]
  rw [if_pos hv]

/-- Record facts about the intermediate results. -/
lemma initResult_method (text : String) :
    (initResult text).extraction_method = "none" := rfl

/-- The AI merge tags its result `ai`. -/
lemma applyAiMerge_method (r : ExtractionResult) (fs : FieldSet) (conf : ℚ) :
    (applyAiMerge r fs conf).extraction_method = "ai" := rfl

/-- The regex merge tags its result `regex` or `hybrid`. -/
lemma applyRegexMerge_method (r : ExtractionResult) (rx : RegexResult) :
    (applyRegexMerge r rx).extraction_method = "regex" ∨
      (applyRegexMerge r rx).extraction_method = "hybrid" := by
  unfold applyRegexMerge
  split
  · left; rfl
  · right; rfl

/-- The regex extractor's fixed confidence key is 0.6. -/
lemma extract_with_regex_confidence (text : String) (email : Option EmailData) :
    (extract_with_regex text email).confidence = 3/5 := by
  unfold extract_with_regex
  split <;> rfl

/-- Filling over a field merged from an all-`None` start prefers the model
value and falls back to the pattern value. -/
lemma fill_keep_none {A : Type} (new rxv : Option A) :
    fillIfNone (keepNewIfSome none new) rxv = keepNewIfSome rxv new := by
  cases new <;> rfl

/-- Finalization when nothing was adopted from the model. -/
lemma applyRegexMerge_of_none {r : ExtractionResult} {rx : RegexResult}
    (h : r.extraction_method = "none") :
    (applyRegexMerge r rx).extraction_method = "regex" ∧
      (applyRegexMerge r rx).confidence = rx.confidence := by
  unfold applyRegexMerge
  rw [if_pos h]
  exact ⟨rfl, rfl⟩

/-- Finalization when a model result had been adopted. -/
lemma applyRegexMerge_of_not_none {r : ExtractionResult} {rx : RegexResult}
    (h : ¬(r.extraction_method = "none")) :
    (applyRegexMerge r rx).extraction_method = "hybrid" ∧
      (applyRegexMerge r rx).confidence = (r.confidence + rx.confidence) / 2 := by
  unfold applyRegexMerge
  rw [if_neg h]
  exact ⟨rfl, rfl⟩

/-- The AI merge keeps the adopted confidence. -/
lemma applyAiMerge_confidence (r : ExtractionResult) (fs : FieldSet) (conf : ℚ) :
    (applyAiMerge r fs conf).confidence = conf := rfl

/-- The regex merge's fields are the additive fill, in both finalization
branches. -/
lemma applyRegexMerge_fields (r : ExtractionResult) (rx : RegexResult) :
    (applyRegexMerge r rx).event_date = fillIfNone r.event_date rx.event_date ∧
    (applyRegexMerge r rx).submission_date = fillIfNone r.submission_date rx.submission_date ∧
    (applyRegexMerge r rx).claim_amount = fillIfNone r.claim_amount rx.claim_amount ∧
    (applyRegexMerge r rx).invoice_number = fillIfNone r.invoice_number rx.invoice_number ∧
    (applyRegexMerge r rx).policy_number = fillIfNone r.policy_number rx.policy_number ∧
    (applyRegexMerge r rx).vendor = fillIfNone r.vendor rx.vendor ∧
    (applyRegexMerge r rx).tax = fillIfNone r.tax rx.tax := by
  unfold applyRegexMerge
  split <;> exact ⟨rfl, rfl, rfl, rfl, rfl, rfl, rfl⟩

/-! ## Claim theorems -/

/-- C5 (code bug).  The claim reads: transient network/timeout failures are
retried up to the configurable `max_retries` with exponential backoff, while
non-transient failures propagate immediately.  In the code, the decorator's
retry predicate accepts only the raw `aiohttp.ClientError` /
`asyncio.TimeoutError`, which the body of `generate_async` has already
wrapped into `VLLMConnectionError` / `VLLMTimeoutError` before they reach the
decorator, and the stop condition is the hardcoded `stop_after_attempt(3)`,
never `max_retries`.  Hence, for every configured `max_retries`, a transport
that fails transiently on every attempt is attempted exactly once and the
wrapped error propagates immediately — no retry ever happens. -/
theorem generate_no_transient_retry :
    ∀ maxRetries : Nat,
      generateWithCount maxRetries (fun _ => .clientErr) =
        (.error .vllmConnectionError, 1) ∧
      generateWithCount maxRetries (fun _ => .timeoutErr) =
        (.error .vllmTimeoutError, 1) :=
  fun _ => ⟨rfl, rfl⟩

/-- C6 (confirmed).  `_extract_amount_regex` collects every match of all its
currency patterns across the whole document (`amountCandidates`: commas
stripped, decimal-parsed, failures discarded) and returns the maximum parsed
candidate, or `None` when no candidate parses; on
`"Total: $10.00\nSubtotal: $8.00\nTax: $2.00"` it returns 10.00. -/
theorem amount_extraction_max_rule :
    (∀ text, amountCandidates text = [] → extract_amount_regex text = none) ∧
    (∀ text q, q ∈ amountCandidates text →
      ∃ mx, extract_amount_regex text = some mx ∧ q ≤ mx ∧
        mx ∈ amountCandidates text) ∧
    extract_amount_regex "Total: $10.00\nSubtotal: $8.00\nTax: $2.00" = some 10 := by
  refine ⟨?_, ?_, ?_⟩
  · intro text h
    unfold extract_amount_regex
    rw [h]
  · intro text q hq
    cases hc : amountCandidates text with
    | nil => rw [hc] at hq; cases hq
    | cons a rest =>
      refine ⟨maxOfList a rest, by unfold extract_amount_regex; rw [hc], ?_, ?_⟩
      · rw [hc] at hq
        rcases List.mem_cons.mp hq with rfl | hq2
        · exact (le_maxOfList q rest).1
        · exact (le_maxOfList a rest).2 q hq2
      · rcases maxOfList_mem a rest with hm | hm
        · rw [hm]; exact List.mem_cons_self a rest
        · exact List.mem_cons_of_mem a hm
  · with_unfolding_all rfl

/-- Witness for C6 at Scenario B: 8.00 is one of the collected candidates and
the returned maximum 10.00 bounds it. -/
theorem amount_extraction_max_rule_witness :
    (8 : ℚ) ∈ amountCandidates "Total: $10.00\nSubtotal: $8.00\nTax: $2.00" ∧
    ∃ mx, extract_amount_regex "Total: $10.00\nSubtotal: $8.00\nTax: $2.00" = some mx ∧
      (8 : ℚ) ≤ mx ∧
      mx ∈ amountCandidates "Total: $10.00\nSubtotal: $8.00\nTax: $2.00" := by
  have hc : amountCandidates "Total: $10.00\nSubtotal: $8.00\nTax: $2.00" =
      [10, 8, 10, 8, 2] := by with_unfolding_all rfl
  have hmem : (8 : ℚ) ∈ amountCandidates "Total: $10.00\nSubtotal: $8.00\nTax: $2.00" := by
    rw [hc]
    exact List.mem_cons_of_mem _ (List.mem_cons_self _ _)
  exact ⟨hmem, amount_extraction_max_rule.2.1 _ 8 hmem⟩

/-- The C9 counterexample text: a generic date appears before the labelled
service date. -/
def exC9 : String := "Invoice Date: 03/20/2024\nDate of Service: 01/15/2024"

/-- C9 (counterexample).  The claim reads: the pattern path's event-date
extraction runs a higher-priority labelled sub-pass (Date of Service, DOS,
…) and falls back to the generic ordered scan only if no labelled phrase
matches.  In the code the `event_date_patterns` table is defined but never
consulted: `_extract_date_regex` runs only the generic scan, so on `exC9` it
returns the earlier generic date 2024-03-20 where the claimed behaviour
(`specEventDateExtract`) would return the labelled 2024-01-15. -/
theorem event_date_subpass_counterexample :
    extract_date_regex exC9 none = some "2024-03-20" ∧
    specEventDateExtract exC9 none = some "2024-01-15" ∧
    ¬(∀ text email, extract_date_regex text email = specEventDateExtract text email) := by
  have h1 : extract_date_regex exC9 none = some "2024-03-20" := by rfl
  have h2 : specEventDateExtract exC9 none = some "2024-01-15" := by rfl
  refine ⟨h1, h2, fun hall => ?_⟩
  have h := hall exC9 none
  rw [h1, h2] at h
  exact absurd h (by decide)

/-- C9 (amended).  The pattern path's event-date extraction performs only the
generic ordered date-pattern scan with the email-date fallback; the labelled
service/visit-date patterns, though defined, are never consulted. -/
theorem event_date_generic_only :
    ∀ text email, extract_date_regex text email = genericDateScan text email :=
  fun _ _ => rfl

/-- C10 (confirmed).  A successful response with at least one choice yields
confidence exactly 0.9 when `finish_reason` is `"stop"` and exactly 0.7
otherwise; consequently every successfully generated and decodable model
response reaching `extract_fields` carries confidence strictly above the 0.5
acceptance gate, so the gate's rejection branch is unreachable for decodable
responses of the repository's client. -/
theorem model_confidence_passes_gate :
    (∀ (body : CompletionsBody) (c : Choice) (rest : List Choice),
      body.choices = c :: rest →
      attemptOnce (.response 200 body) =
        .ok { text := pyStrip (c.text.getD "")
              confidence := if c.finish_reason.getD "" = "stop" then 9/10 else 7/10 }) ∧
    (∀ (m : Nat) (transport : Nat → HttpOutcome) (decode : String → Option JsonObj)
      (text : String) (fs : FieldSet) (conf : ℚ),
      extract_with_ai (vllmClientBeh m transport decode) text = .ok (fs, conf) →
      (conf = 9/10 ∨ conf = 7/10) ∧ (1 : ℚ)/2 < conf) := by
  constructor
  · intro body c rest hch
    simp only [attemptOnce, hch]
    norm_num
  · intro m transport decode text fs conf h
    have hc := extract_with_ai_ok_confidence h
    refine ⟨hc, ?_⟩
    rcases hc with rfl | rfl <;> norm_num

/-- Witness for C10: a stop-terminated single-choice response evaluates to
confidence 0.9, and a concrete non-stop run of the full client stack yields
confidence 0.7, above the gate. -/
theorem model_confidence_passes_gate_witness :
    attemptOnce (.response 200 ⟨[⟨some "j", some "stop"⟩]⟩) =
      .ok { text := pyStrip ((some "j").getD "")
            confidence := if (some "stop").getD "" = "stop" then 9/10 else 7/10 } ∧
    ((((7 : ℚ)/10 = 9/10 ∨ (7 : ℚ)/10 = 7/10) ∧ (1 : ℚ)/2 < 7/10)) :=
  ⟨model_confidence_passes_gate.1 ⟨[⟨some "j", some "stop"⟩]⟩ ⟨some "j", some "stop"⟩ [] rfl,
   model_confidence_passes_gate.2 1 (fun _ => .response 200 ⟨[⟨some "j", some "len"⟩]⟩)
     (fun _ => some []) "t" (validate_extracted_data []) (7/10) (by rfl)⟩

/-- C4 (confirmed).  Every result returned by `extract_fields` carries one of
exactly four provenance tags.  The source's strings are `none`, `regex`,
`ai`, `hybrid`; the spec names the same four values `none`, `pattern`,
`model`, `hybrid` (its glossary maps `pattern` to the regex path and `model`
to the AI path). -/
theorem extraction_method_enum {uf : Bool} {client : Option ClientBeh}
    {text : String} {email : Option EmailData} {r : ExtractionResult}
    (h : extract_fields uf client text email = .ok r) :
    r.extraction_method = "none" ∨ r.extraction_method = "regex" ∨
      r.extraction_method = "ai" ∨ r.extraction_method = "hybrid" := by
  unfold extract_fields at h
  by_cases he : pyStrip text = ""
  · rw [if_pos he] at h
    cases h
    exact Or.inl rfl
  · rw [if_neg he] at h
    cases hstep : aiStep client text with
    | error e => simp only [hstep] at h; cases h
    | ok p =>
      obtain ⟨r0, early⟩ := p
      simp only [hstep] at h
      have hr0 : r0.extraction_method = "none" ∨ r0.extraction_method = "ai" := by
        rcases aiStep_ok_cases hstep with ⟨h0, _⟩ | ⟨beh, fs, conf, _, _, _, h0, _⟩
        · left; rw [h0]; rfl
        · right; rw [h0]; rfl
      by_cases hearly : early = true
      · rw [if_pos hearly] at h
        cases h
        rcases hr0 with h0 | h0
        · exact Or.inl h0
        · exact Or.inr (Or.inr (Or.inl h0))
      · rw [if_neg hearly] at h
        by_cases huf : uf = true
        · rw [if_pos huf] at h
          cases h
          rcases applyRegexMerge_method r0 (extract_with_regex text email) with h0 | h0
          · exact Or.inr (Or.inl h0)
          · exact Or.inr (Or.inr (Or.inr h0))
        · rw [if_neg huf] at h
          cases h
          rcases hr0 with h0 | h0
          · exact Or.inl h0
          · exact Or.inr (Or.inr (Or.inl h0))

/-- Witness for C4: a concrete fallback-only run. -/
theorem extraction_method_enum_witness :
    (applyRegexMerge (initResult "x") (extract_with_regex "x" none)).extraction_method = "none" ∨
    (applyRegexMerge (initResult "x") (extract_with_regex "x" none)).extraction_method = "regex" ∨
    (applyRegexMerge (initResult "x") (extract_with_regex "x" none)).extraction_method = "ai" ∨
    (applyRegexMerge (initResult "x") (extract_with_regex "x" none)).extraction_method = "hybrid" :=
  @extraction_method_enum true none "x" none
    (applyRegexMerge (initResult "x") (extract_with_regex "x" none))
    (by with_unfolding_all rfl)

/-- C7 (confirmed).  Blank input returns the initial result immediately (all
seven fields absent, method `none`, confidence 0), and whenever the returned
method is `none` the result is exactly that all-absent initial result. -/
theorem empty_input_and_none_invariant :
    (∀ (uf : Bool) (client : Option ClientBeh) (text : String) (email : Option EmailData),
      pyStrip text = "" → extract_fields uf client text email = .ok (initResult text)) ∧
    (∀ text : String,
      (initResult text).event_date = none ∧ (initResult text).submission_date = none ∧
      (initResult text).claim_amount = none ∧ (initResult text).invoice_number = none ∧
      (initResult text).policy_number = none ∧ (initResult text).vendor = none ∧
      (initResult text).tax = none ∧ (initResult text).extraction_method = "none" ∧
      (initResult text).confidence = 0) ∧
    (∀ (uf : Bool) (client : Option ClientBeh) (text : String) (email : Option EmailData)
        (r : ExtractionResult),
      extract_fields uf client text email = .ok r →
      r.extraction_method = "none" → r = initResult text) := by
  refine ⟨?_, ?_, ?_⟩
  · intro uf client text email he
    unfold extract_fields
    rw [if_pos he]
  · intro text
    exact ⟨rfl, rfl, rfl, rfl, rfl, rfl, rfl, rfl, rfl⟩
  · intro uf client text email r h hm
    unfold extract_fields at h
    by_cases he : pyStrip text = ""
    · rw [if_pos he] at h
      cases h
      rfl
    · rw [if_neg he] at h
      cases hstep : aiStep client text with
      | error e => simp only [hstep] at h; cases h
      | ok p =>
        obtain ⟨r0, early⟩ := p
        simp only [hstep] at h
        have hr0 : r0 = initResult text ∨ r0.extraction_method = "ai" := by
          rcases aiStep_ok_cases hstep with ⟨h0, _⟩ | ⟨beh, fs, conf, _, _, _, h0, _⟩
          · exact Or.inl h0
          · right; rw [h0]; rfl
        have hfromR0 : r = r0 → r = initResult text := by
          intro hrr
          rcases hr0 with h0 | h0
          · rw [hrr, h0]
          · rw [hrr] at hm
            exact absurd (h0.symm.trans hm) (by decide)
        by_cases hearly : early = true
        · rw [if_pos hearly] at h
          cases h
          exact hfromR0 rfl
        · rw [if_neg hearly] at h
          by_cases huf : uf = true
          · rw [if_pos huf] at h
            cases h
            rcases applyRegexMerge_method r0 (extract_with_regex text email) with h0 | h0 <;>
              exact absurd (h0.symm.trans hm) (by decide)
          · rw [if_neg huf] at h
            cases h
            exact hfromR0 rfl

/-- Witness for C7: a whitespace-only input. -/
theorem empty_input_and_none_invariant_witness :
    extract_fields true none " \n " none = .ok (initResult " \n ") ∧
    initResult " \n " = initResult " \n " :=
  ⟨empty_input_and_none_invariant.1 true none " \n " none (by decide),
   empty_input_and_none_invariant.2.2 true none " \n " none (initResult " \n ")
     (empty_input_and_none_invariant.1 true none " \n " none (by decide)) rfl⟩

/-- C1 (confirmed).  Over the repository's client, `extract_fields` always
returns a result record (the only exceptions `_extract_with_ai` can raise are
`VLLMClientError` subclasses — wrapped connection errors, wrapped timeouts,
and the decode-failure `VLLMClientError` — and `extract_fields` catches
exactly `VLLMClientError`); when the model attempt fails and the fallback is
enabled, the call degrades to the regex path and is tagged `regex`. -/
theorem extract_fields_total_and_degrades :
    ∀ (uf : Bool) (m : Nat) (transport : Nat → HttpOutcome)
      (decode : String → Option JsonObj) (text : String) (email : Option EmailData),
      (∃ r, extract_fields uf (some (vllmClientBeh m transport decode)) text email = .ok r) ∧
      (∀ e, pyStrip text ≠ "" →
        extract_with_ai (vllmClientBeh m transport decode) text = .error e →
        extract_fields true (some (vllmClientBeh m transport decode)) text email =
          .ok (applyRegexMerge (initResult text) (extract_with_regex text email)) ∧
        (applyRegexMerge (initResult text) (extract_with_regex text email)).extraction_method =
          "regex") := by
  intro uf m transport decode text email
  constructor
  · by_cases he : pyStrip text = ""
    · exact ⟨initResult text, by unfold extract_fields; rw [if_pos he]⟩
    · obtain ⟨⟨r0, early⟩, hstep⟩ := aiStep_vllm_isOk m transport decode text
      by_cases hearly : early = true
      · refine ⟨r0, ?_⟩
        unfold extract_fields
        rw [if_neg he]
        simp only [hstep]
        rw [if_pos hearly]
      · by_cases huf : uf = true
        · refine ⟨applyRegexMerge r0 (extract_with_regex text email), ?_⟩
          unfold extract_fields
          rw [if_neg he]
          simp only [hstep]
          rw [if_neg hearly, if_pos huf]
        · refine ⟨r0, ?_⟩
          unfold extract_fields
          rw [if_neg he]
          simp only [hstep]
          rw [if_neg hearly, if_neg huf]
  · intro e hne hai
    have hstep := aiStep_vllm_error hai
    refine ⟨?_, (applyRegexMerge_of_none (initResult_method text)).1⟩
    unfold extract_fields
    rw [if_neg hne]
    simp only [hstep]
    rw [if_neg Bool.false_ne_true, if_pos trivial]

/-- Witness for C1 at Scenario D: a transport failing with a connection error
on every attempt still yields a `regex`-tagged result, no exception. -/
theorem extract_fields_total_and_degrades_witness :
    extract_fields true (some (vllmClientBeh 3 (fun _ => .clientErr) (fun _ => none))) "x" none =
      .ok (applyRegexMerge (initResult "x") (extract_with_regex "x" none)) ∧
    (applyRegexMerge (initResult "x") (extract_with_regex "x" none)).extraction_method =
      "regex" :=
  (extract_fields_total_and_degrades true 3 (fun _ => .clientErr) (fun _ => none) "x" none).2
    .vllmConnectionError (by decide) rfl

/-- The AI merge over the all-absent initial result, field by field. -/
lemma applyAiMerge_init_fields (text : String) (fs : FieldSet) (conf : ℚ) :
    (applyAiMerge (initResult text) fs conf).event_date = keepNewIfSome none fs.event_date ∧
    (applyAiMerge (initResult text) fs conf).submission_date = keepNewIfSome none fs.submission_date ∧
    (applyAiMerge (initResult text) fs conf).claim_amount = keepNewIfSome none fs.claim_amount ∧
    (applyAiMerge (initResult text) fs conf).invoice_number = keepNewIfSome none fs.invoice_number ∧
    (applyAiMerge (initResult text) fs conf).policy_number = keepNewIfSome none fs.policy_number ∧
    (applyAiMerge (initResult text) fs conf).vendor = keepNewIfSome none fs.vendor ∧
    (applyAiMerge (initResult text) fs conf).tax = keepNewIfSome none fs.tax :=
  ⟨rfl, rfl, rfl, rfl, rfl, rfl, rfl⟩

/-- C8 (confirmed).  The final confidence mirrors provenance: a `regex`-tagged
result carries the pattern extractor's fixed 0.6; with an adopted model
result of confidence `conf`, a `hybrid`-tagged result carries the arithmetic
mean `(conf + 0.6) / 2` and an `ai`-tagged result carries `conf` itself. -/
theorem confidence_finalization :
    ∀ (uf : Bool) (client : Option ClientBeh) (text : String) (email : Option EmailData)
      (r : ExtractionResult),
      extract_fields uf client text email = .ok r →
      ((r.extraction_method = "regex" → r.confidence = 3/5) ∧
       (∀ (beh : ClientBeh) (fs : FieldSet) (conf : ℚ),
         client = some beh → extract_with_ai beh text = .ok (fs, conf) →
         (r.extraction_method = "hybrid" → r.confidence = (conf + 3/5) / 2) ∧
         (r.extraction_method = "ai" → r.confidence = conf))) := by
  intro uf client text email r h
  unfold extract_fields at h
  by_cases he : pyStrip text = ""
  · rw [if_pos he] at h
    cases h
    constructor
    · intro hx
      exact absurd ((initResult_method text).symm.trans hx) (by decide)
    · intro beh fs conf hcl hai
      constructor <;> intro hx <;>
        exact absurd ((initResult_method text).symm.trans hx) (by decide)
  · rw [if_neg he] at h
    cases hstep : aiStep client text with
    | error e => simp only [hstep] at h; cases h
    | ok p =>
      obtain ⟨r0, early⟩ := p
      simp only [hstep] at h
      rcases aiStep_ok_cases hstep with ⟨hr0, hearly0⟩ |
        ⟨beh0, fs0, conf0, hcl0, hai0, hgate0, hr0, hearly0⟩
      · -- nothing adopted: r0 is the initial result
        subst hr0
        have hdone : r = initResult text ∨
            r = applyRegexMerge (initResult text) (extract_with_regex text email) := by
          by_cases hearly : early = true
          · rw [if_pos hearly] at h; cases h; exact Or.inl rfl
          · rw [if_neg hearly] at h
            by_cases huf : uf = true
            · rw [if_pos huf] at h; cases h; exact Or.inr rfl
            · rw [if_neg huf] at h; cases h; exact Or.inl rfl
        rcases hdone with rfl | rfl
        · constructor
          · intro hx
            exact absurd ((initResult_method text).symm.trans hx) (by decide)
          · intro beh fs conf hcl hai
            constructor <;> intro hx <;>
              exact absurd ((initResult_method text).symm.trans hx) (by decide)
        · have hmc := @applyRegexMerge_of_none (initResult text)
            (extract_with_regex text email) (initResult_method text)
          constructor
          · intro hx
            exact hmc.2.trans (extract_with_regex_confidence text email)
          · intro beh fs conf hcl hai
            constructor <;> intro hx <;>
              exact absurd (hmc.1.symm.trans hx) (by decide)
      · -- a model result was adopted into r0
        subst hr0
        have hnn : ¬((applyAiMerge (initResult text) fs0 conf0).extraction_method = "none") := by
          rw [applyAiMerge_method]; decide
        have hdone : r = applyAiMerge (initResult text) fs0 conf0 ∨
            r = applyRegexMerge (applyAiMerge (initResult text) fs0 conf0)
              (extract_with_regex text email) := by
          by_cases hearly : early = true
          · rw [if_pos hearly] at h; cases h; exact Or.inl rfl
          · rw [if_neg hearly] at h
            by_cases huf : uf = true
            · rw [if_pos huf] at h; cases h; exact Or.inr rfl
            · rw [if_neg huf] at h; cases h; exact Or.inl rfl
        have hsame : ∀ (beh : ClientBeh) (fs : FieldSet) (conf : ℚ),
            client = some beh → extract_with_ai beh text = .ok (fs, conf) →
            fs = fs0 ∧ conf = conf0 := by
          intro beh fs conf hcl hai
          rw [hcl0] at hcl
          injection hcl with hbeq
          rw [← hbeq] at hai
          rw [hai0] at hai
          injection hai with hp
          cases hp
          exact ⟨rfl, rfl⟩
        rcases hdone with rfl | rfl
        · constructor
          · intro hx
            exact absurd ((applyAiMerge_method _ _ _).symm.trans hx) (by decide)
          · intro beh fs conf hcl hai
            obtain ⟨hfs, hconf⟩ := hsame beh fs conf hcl hai
            constructor
            · intro hx
              exact absurd ((applyAiMerge_method _ _ _).symm.trans hx) (by decide)
            · intro hx
              rw [applyAiMerge_confidence, hconf]
        · have hmc := @applyRegexMerge_of_not_none (applyAiMerge (initResult text) fs0 conf0)
            (extract_with_regex text email) hnn
          constructor
          · intro hx
            exact absurd (hmc.1.symm.trans hx) (by decide)
          · intro beh fs conf hcl hai
            obtain ⟨hfs, hconf⟩ := hsame beh fs conf hcl hai
            constructor
            · intro hx
              rw [hmc.2, applyAiMerge_confidence, extract_with_regex_confidence, hconf]
            · intro hx
              exact absurd (hmc.1.symm.trans hx) (by decide)

/-- C2 (confirmed).  When an adopted model attempt is followed by the pattern
fallback, the merge is strictly additive: for every one of the seven fields
the final value is the model's whenever that is non-null, and the pattern
extractor's value is adopted only into fields still null before the merge. -/
theorem hybrid_merge_additive :
    ∀ (beh : ClientBeh) (text : String) (email : Option EmailData)
      (fs : FieldSet) (conf : ℚ) (r : ExtractionResult),
      extract_with_ai beh text = .ok (fs, conf) →
      (1 : ℚ)/2 < conf →
      pyStrip text ≠ "" →
      has_meaningful_data (applyAiMerge (initResult text) fs conf) = false →
      extract_fields true (some beh) text email = .ok r →
      r.extraction_method = "hybrid" ∧
      r.event_date = keepNewIfSome (extract_with_regex text email).event_date fs.event_date ∧
      r.submission_date =
        keepNewIfSome (extract_with_regex text email).submission_date fs.submission_date ∧
      r.claim_amount = keepNewIfSome (extract_with_regex text email).claim_amount fs.claim_amount ∧
      r.invoice_number =
        keepNewIfSome (extract_with_regex text email).invoice_number fs.invoice_number ∧
      r.policy_number =
        keepNewIfSome (extract_with_regex text email).policy_number fs.policy_number ∧
      r.vendor = keepNewIfSome (extract_with_regex text email).vendor fs.vendor ∧
      r.tax = keepNewIfSome (extract_with_regex text email).tax fs.tax := by
  intro beh text email fs conf r hai hconf hne hnm h
  have hstep : aiStep (some beh) text = .ok (applyAiMerge (initResult text) fs conf, false) := by
    simp only [aiStep, hai]
    rw [if_pos hconf, hnm]
  unfold extract_fields at h
  rw [if_neg hne] at h
  simp only [hstep] at h
  rw [if_neg Bool.false_ne_true, if_pos trivial] at h
  cases h
  have hf := applyRegexMerge_fields (applyAiMerge (initResult text) fs conf)
    (extract_with_regex text email)
  have hg := applyAiMerge_init_fields text fs conf
  refine ⟨?_, ?_, ?_, ?_, ?_, ?_, ?_, ?_⟩
  · exact (applyRegexMerge_of_not_none (by rw [applyAiMerge_method]; decide)).1
  · rw [hf.1, hg.1]; exact fill_keep_none _ _
  · rw [hf.2.1, hg.2.1]; exact fill_keep_none _ _
  · rw [hf.2.2.1, hg.2.2.1]; exact fill_keep_none _ _
  · rw [hf.2.2.2.1, hg.2.2.2.1]; exact fill_keep_none _ _
  · rw [hf.2.2.2.2.1, hg.2.2.2.2.1]; exact fill_keep_none _ _
  · rw [hf.2.2.2.2.2.1, hg.2.2.2.2.2.1]; exact fill_keep_none _ _
  · rw [hf.2.2.2.2.2.2, hg.2.2.2.2.2.2]; exact fill_keep_none _ _

/-- Concrete client for the hybrid witness runs: a successful, non-stop
generation whose decoded JSON populates only the non-anchor fields `tax` and
`policy_number`, so the early return does not fire and the fallback runs. -/
def behHybrid : ClientBeh :=
  vllmClientBeh 3 (fun _ => .response 200 ⟨[⟨some "j", some "len"⟩]⟩)
    (fun _ => some [("tax", .jnum 5), ("policy_number", .jstr "P-1")])

/-- The cleaned field set `behHybrid`'s decode yields. -/
def fsHybrid : FieldSet :=
  validate_extracted_data [("tax", .jnum 5), ("policy_number", .jstr "P-1")]

/-- The final record of the hybrid witness run on input `"x"`. -/
def rHybrid : ExtractionResult :=
  applyRegexMerge (applyAiMerge (initResult "x") fsHybrid (7/10))
    (extract_with_regex "x" none)

/-- Witness for C2: the concrete hybrid run obeys the per-field merge law. -/
theorem hybrid_merge_additive_witness :
    rHybrid.extraction_method = "hybrid" ∧
    rHybrid.event_date = keepNewIfSome (extract_with_regex "x" none).event_date fsHybrid.event_date ∧
    rHybrid.submission_date =
      keepNewIfSome (extract_with_regex "x" none).submission_date fsHybrid.submission_date ∧
    rHybrid.claim_amount =
      keepNewIfSome (extract_with_regex "x" none).claim_amount fsHybrid.claim_amount ∧
    rHybrid.invoice_number =
      keepNewIfSome (extract_with_regex "x" none).invoice_number fsHybrid.invoice_number ∧
    rHybrid.policy_number =
      keepNewIfSome (extract_with_regex "x" none).policy_number fsHybrid.policy_number ∧
    rHybrid.vendor = keepNewIfSome (extract_with_regex "x" none).vendor fsHybrid.vendor ∧
    rHybrid.tax = keepNewIfSome (extract_with_regex "x" none).tax fsHybrid.tax :=
  hybrid_merge_additive behHybrid "x" none fsHybrid (7/10) rHybrid
    (by with_unfolding_all rfl) (by norm_num) (by decide)
    (by with_unfolding_all rfl) (by with_unfolding_all rfl)

/-- Witness for C8: the concrete hybrid run's confidence is the mean of the
model's 0.7 and the pattern extractor's 0.6. -/
theorem confidence_finalization_witness :
    rHybrid.confidence = (7/10 + 3/5) / 2 :=
  ((confidence_finalization true (some behHybrid) "x" none rHybrid
      (by with_unfolding_all rfl)).2
    behHybrid fsHybrid (7/10) rfl (by with_unfolding_all rfl)).1
    (by with_unfolding_all rfl)

/-- The mock client of the C3 counterexample: a decodable response carrying
confidence 0.4 (below the gate) with a populated `claim_amount` — the shape
the repository's own tests inject through mock clients. -/
def behLowConf : ClientBeh where
  generate := .ok { text := "j", confidence := 2/5 }
  decode := fun _ => some [("claim_amount", .jnum 5)]

/-- C3 (counterexample).  The claim reads: a decoded model value is kept
per-field even when the model's overall confidence is at or below 0.5.  In
the code the whole decoded result is discarded when the confidence gate
fails: here the model supplies `claim_amount = 5` at confidence 0.4, yet the
final result carries the pattern value 10, not 5. -/
theorem lowconf_model_value_dropped :
    extract_with_ai behLowConf "Total: $10.00" =
      .ok (validate_extracted_data [("claim_amount", .jnum 5)], 2/5) ∧
    (validate_extracted_data [("claim_amount", .jnum 5)]).claim_amount = some 5 ∧
    (extract_fields true (some behLowConf) "Total: $10.00" none).toOption.map
      (fun r => r.claim_amount) = some (some 10) ∧
    ¬(some (10 : ℚ) = some (5 : ℚ)) := by
  refine ⟨rfl, rfl, by with_unfolding_all rfl, ?_⟩
  intro hx
  rw [Option.some.injEq] at hx
  norm_num at hx

/-- C3 (amended).  Model values are preferred per-field only when the model's
overall confidence exceeds 0.5; at or below the gate the decoded model output
is discarded entirely, and with the fallback enabled every field of the final
result equals the pattern extractor's value, tagged `regex` at confidence
0.6. -/
theorem lowconf_model_discarded :
    ∀ (beh : ClientBeh) (text : String) (email : Option EmailData)
      (fs : FieldSet) (conf : ℚ) (r : ExtractionResult),
      extract_with_ai beh text = .ok (fs, conf) →
      conf ≤ 1/2 →
      pyStrip text ≠ "" →
      extract_fields true (some beh) text email = .ok r →
      r.extraction_method = "regex" ∧
      r.event_date = (extract_with_regex text email).event_date ∧
      r.submission_date = (extract_with_regex text email).submission_date ∧
      r.claim_amount = (extract_with_regex text email).claim_amount ∧
      r.invoice_number = (extract_with_regex text email).invoice_number ∧
      r.policy_number = (extract_with_regex text email).policy_number ∧
      r.vendor = (extract_with_regex text email).vendor ∧
      r.tax = (extract_with_regex text email).tax ∧
      r.confidence = 3/5 := by
  intro beh text email fs conf r hai hle hne h
  have hstep : aiStep (some beh) text = .ok (initResult text, false) := by
    simp only [aiStep, hai]
    rw [if_neg (not_lt.mpr hle)]
  unfold extract_fields at h
  rw [if_neg hne] at h
  simp only [hstep] at h
  rw [if_neg Bool.false_ne_true, if_pos trivial] at h
  cases h
  have hf := applyRegexMerge_fields (initResult text) (extract_with_regex text email)
  have hmc := @applyRegexMerge_of_none (initResult text)
    (extract_with_regex text email) (initResult_method text)
  exact ⟨hmc.1, hf.1, hf.2.1, hf.2.2.1, hf.2.2.2.1, hf.2.2.2.2.1, hf.2.2.2.2.2.1,
    hf.2.2.2.2.2.2, hmc.2.trans (extract_with_regex_confidence text email)⟩

/-- The final record of the C3 witness run. -/
def rLowConf : ExtractionResult :=
  applyRegexMerge (initResult "Total: $10.00") (extract_with_regex "Total: $10.00" none)

/-- Witness for the amended C3: the concrete low-confidence run is fully
pattern-valued and `regex`-tagged. -/
theorem lowconf_model_discarded_witness :
    rLowConf.extraction_method = "regex" ∧
    rLowConf.event_date = (extract_with_regex "Total: $10.00" none).event_date ∧
    rLowConf.submission_date = (extract_with_regex "Total: $10.00" none).submission_date ∧
    rLowConf.claim_amount = (extract_with_regex "Total: $10.00" none).claim_amount ∧
    rLowConf.invoice_number = (extract_with_regex "Total: $10.00" none).invoice_number ∧
    rLowConf.policy_number = (extract_with_regex "Total: $10.00" none).policy_number ∧
    rLowConf.vendor = (extract_with_regex "Total: $10.00" none).vendor ∧
    rLowConf.tax = (extract_with_regex "Total: $10.00" none).tax ∧
    rLowConf.confidence = 3/5 :=
  lowconf_model_discarded behLowConf "Total: $10.00" none
    (validate_extracted_data [("claim_amount", .jnum 5)]) (2/5) rLowConf
    rfl (by norm_num) (by decide) (by with_unfolding_all rfl)

end SimpleOCR
